import Mathlib

/-!
Shallow embedding of the anomaly-detection core of the Loco_data pipeline
(`anomaly_detection.py`, plus the derived-rate step of
`feature_engineering.py` that produces its input).

Modelling conventions:
* A pandas cell is `Option ℚ`: `none` models NaN/NULL.  Comparisons with
  NaN are `False` in pandas, hence `none` never satisfies a threshold
  predicate.
* A DataFrame is a `schema` (the column list, `df.columns`) together with
  rows given as association lists from column name to cell.  Reading a
  column that is absent from the schema models the pandas `KeyError`.
* Sensor values, thresholds and locomotive ids are rationals.
* The external sklearn calls (`StandardScaler.fit_transform` followed by
  `IsolationForest.fit_predict`, lines 154-163 of the source) are modelled
  by an opaque function parameter `MLOracle`: given the contamination,
  the fixed random seed (42) and the median-imputed moving-row matrix it
  returns `some preds` (`preds[i] = true` meaning the row is predicted
  an outlier, i.e. sklearn's -1) or `none` when fitting fails with an
  exception.  The oracle is a function, so it is deterministic in
  (contamination, seed, data), matching `random_state=42`.
* The configured `ANOMALY_FEATURES` list (from the external `config`
  module) is assumed disjoint from the detector-added column names, as in
  the spec's input contract (the configured lists name FeatureRecord
  attributes).
-/

set_option allowUnsafeReducibility true

attribute [semireducible] Rat.add Rat.mul Rat.inv Rat.sub Rat.ofScientific

/-- A pandas cell: `none` is NaN/NULL. -/
abbrev Cell := Option ℚ

/-- A DataFrame row: association list from column name to cell. -/
abbrev Row := List (String × Cell)

/-- A DataFrame: column list plus rows. -/
structure Table where
  schema : List String
  rows : List Row
deriving DecidableEq

/-- Read a cell from a row; a key absent from the association list is NaN. -/
def getCell (r : Row) (c : String) : Cell := (List.lookup c r).getD none

/-- Row `i` of a table (out-of-range reads give an empty row; all theorems
bound `i` by the row count). -/
def rowAt (t : Table) (i : ℕ) : Row := t.rows.getD i []

/-- pandas `==` on cells: NaN compares unequal to everything, itself included. -/
def cellEq (a b : Cell) : Bool :=
  match a, b with
  | some x, some y => decide (x = y)
  | _, _ => false

/-- pandas `series > thr`: NaN never satisfies the comparison. -/
def cellGT (x : Cell) (thr : ℚ) : Bool :=
  match x with
  | some v => decide (thr < v)
  | none => false

/-- pandas `series < thr`: NaN never satisfies the comparison. -/
def cellLT (x : Cell) (thr : ℚ) : Bool :=
  match x with
  | some v => decide (v < thr)
  | none => false

/-- pandas `.abs()` on a cell. -/
def cellAbs (x : Cell) : Cell := x.map (fun v => |v|)

/-- `series.dropna()`: the non-missing values, in order. -/
def dropna (l : List Cell) : List ℚ := l.filterMap id

/-- pandas `Series.median()`: sort, take the middle element (odd length)
or the average of the two middle elements (even length); NaN on empty. -/
def pandasMedian (l : List ℚ) : Cell :=
  let s := List.insertionSort (· ≤ ·) l
  let n := l.length
  if n = 0 then none
  else if n % 2 = 1 then some (s.getD (n / 2) 0)
  else some ((s.getD (n / 2 - 1) 0 + s.getD (n / 2) 0) / 2)

/-- `calculate_mad` (anomaly_detection.py lines 15-19):
`median = series.median(); mad = np.abs(series - median).median()`.
The series is the already-dropna'd group values. -/
def calculate_mad (series : List ℚ) : Cell × Cell :=
  match pandasMedian series with
  | none => (none, none)
  | some m => (some m, pandasMedian (series.map (fun x => |x - m|)))

/-- Thresholds of the rule layer (the `THRESHOLDS` dict of the external
`config` module; the detector only reads these six keys). -/
structure Thresholds where
  temp_motor_max : ℚ
  temp_motor_rate_max : ℚ
  current_std_max : ℚ
  battery_min : ℚ
  speed_jump_max : ℚ
  pressure_min : ℚ
deriving DecidableEq

/-- Externally supplied configuration read by `detect_anomalies`. -/
structure Config where
  thresholds : Thresholds
  mad_threshold : ℚ
  anomaly_features : List String
  contamin_frac : ℚ
deriving DecidableEq

/-- The external sklearn scaler+forest call, as an opaque deterministic
function of (contamination, random seed, imputed data); `none` models a
fit/predict exception. -/
def MLOracle : Type := ℚ → ℕ → List (List Cell) → Option (List Bool)

/-- The `locoid` column of the table. -/
def locoidCol (t : Table) : List Cell := t.rows.map (fun r => getCell r "locoid")

/-- `df['locoid'].unique()`: first-occurrence order, NaN kept as a value. -/
def uniquesAux (seen : List Cell) : List Cell → List Cell
  | [] => []
  | x :: xs => if x ∈ seen then uniquesAux seen xs else x :: uniquesAux (x :: seen) xs

/-- `Series.unique()` in first-occurrence order. -/
def uniques (l : List Cell) : List Cell := uniquesAux [] l

/-- Indices of the rows of the group `df['locoid'] == k` (pandas `==`:
rows with NaN locoid belong to no group, and a NaN key matches no row). -/
def locoIdxs (t : Table) (k : Cell) : List ℕ :=
  (List.range t.rows.length).filter (fun i => cellEq (getCell (rowAt t i) "locoid") k)

/-- The nearest preceding row of the same locomotive:
greatest `j < i` with `df['locoid'][j] == df['locoid'][i]` (pandas `==`,
so a row with NaN locoid has no predecessor). -/
def prevSame (t : Table) (i : ℕ) : Option ℕ :=
  (List.range i).reverse.find?
    (fun j => cellEq (getCell (rowAt t j) "locoid") (getCell (rowAt t i) "locoid"))

/-- `df.groupby('locoid')['avg_speed'].diff().abs()` at row `i`
(anomaly_detection.py line 88): absolute difference from the previous
row of the same group; NaN for the first row of a group, for NaN-keyed
rows, and when either speed is NaN. -/
def speedChange (t : Table) (i : ℕ) : Cell :=
  match prevSame t i with
  | none => none
  | some j =>
    match getCell (rowAt t i) "avg_speed", getCell (rowAt t j) "avg_speed" with
    | some a, some b => some |a - b|
    | _, _ => none

/-- Layer 1 (lines 61-98): the six rule predicates of row `i`, in source
order, each paired with the tag it appends to `anomaly_types`. -/
def ruleConds (cfg : Config) (t : Table) (i : ℕ) : List (String × Bool) :=
  let r := rowAt t i
  [("HIGH_TEMP", cellGT (getCell r "temp_motor1_1_max") cfg.thresholds.temp_motor_max),
   ("TEMP_SPIKE", cellGT (cellAbs (getCell r "temp_motor1_1_rate")) cfg.thresholds.temp_motor_rate_max),
   ("CURRENT_UNSTABLE", cellGT (getCell r "current_u_std") cfg.thresholds.current_std_max),
   ("LOW_BATTERY", cellLT (getCell r "battery_volt_min") cfg.thresholds.battery_min),
   ("SPEED_JUMP", cellGT (speedChange t i) cfg.thresholds.speed_jump_max),
   ("LOW_PRESSURE", cellLT (getCell r "pressure_tr1_min") cfg.thresholds.pressure_min)]

/-- The hard-coded MAD feature list (line 109). -/
def madFeatures : List String :=
  ["temp_motor1_1_mean", "current_u_mean", "pressure_tr1_mean"]

/-- Python `str.upper()` on the ASCII feature names (character-wise
upper-casing). -/
def strUpper (s : String) : String := ⟨s.data.map Char.toUpper⟩

/-- The values of column `f` over the group of key `k`. -/
def groupVals (t : Table) (k : Cell) (f : String) : List Cell :=
  (locoIdxs t k).map (fun i => getCell (rowAt t i) f)

/-- Layer 2 guards (lines 116-120): the (entity, feature) statistics are
produced only when the feature column exists, the group has more than 10
non-missing values, and the MAD is strictly positive; otherwise the pair
is skipped. -/
def madStats (t : Table) (k : Cell) (f : String) : Option (ℚ × ℚ) :=
  if t.schema.contains f then
    let vals := dropna (groupVals t k f)
    if 10 < vals.length then
      match calculate_mad vals with
      | (some m, some d) => if 0 < d then some (m, d) else none
      | _ => none
    else none
  else none

/-- Line 121-122: `|x - median| / (1.4826 * mad) > MAD_THRESHOLD`; a NaN
value never triggers. -/
def zFlag (cfg : Config) (m d : ℚ) (x : Cell) : Bool :=
  match x with
  | some v => decide (cfg.mad_threshold < |(v - m) / ((14826 / 10000 : ℚ) * d)|)
  | none => false

/-- Layer 2 (lines 112-126): row `i` receives the MAD flag for feature
`f` iff some iteration of the loop over `df['locoid'].unique()` covers it
(its group mask matches) and its modified z-score exceeds the threshold. -/
def madFlagFeature (cfg : Config) (t : Table) (i : ℕ) (f : String) : Bool :=
  (uniques (locoidCol t)).any (fun k =>
    cellEq (getCell (rowAt t i) "locoid") k &&
    match madStats t k f with
    | some (m, d) => zFlag cfg m d (getCell (rowAt t i) f)
    | none => false)

/-- The MAD conditions of row `i`, in feature order, paired with their
tags `MAD_<FEATURE>` (line 125). -/
def madConds (cfg : Config) (t : Table) (i : ℕ) : List (String × Bool) :=
  madFeatures.map (fun f => ("MAD_" ++ strUpper f, madFlagFeature cfg t i f))

/-- Layer 3 (line 146): the moving rows of group `k`,
`df.loc[loco_mask, 'pct_moving'] > 0.5`. -/
def movingIdxs (t : Table) (k : Cell) : List ℕ :=
  (locoIdxs t k).filter (fun i => cellGT (getCell (rowAt t i) "pct_moving") (1 / 2))

/-- Median of column `f` over the row set `idxs` (used by `fillna`). -/
def colMedianOver (t : Table) (idxs : List ℕ) (f : String) : Cell :=
  pandasMedian (dropna (idxs.map (fun i => getCell (rowAt t i) f)))

/-- Line 151: `loco_data_moving.fillna(loco_data_moving.median())` —
missing cells are imputed with the per-feature median of the moving
subset (and stay NaN when that median is itself NaN). -/
def imputedData (t : Table) (feats : List String) (idxs : List ℕ) : List (List Cell) :=
  idxs.map (fun i => feats.map (fun f =>
    match getCell (rowAt t i) f with
    | some v => some v
    | none => colMedianOver t idxs f))

/-- Layer 3 loop over `df['locoid'].unique()` (lines 141-169).  Per
group: read `pct_moving` (a KeyError if the column is absent — line 146),
filter to moving rows, require strictly more than 50 of them, impute,
then call the scaler+forest oracle; an oracle failure is the uncaught
sklearn exception and aborts the whole run.  Returns the indices of the
rows predicted outliers. -/
def mlLoop (cfg : Config) (fit : MLOracle) (t : Table) (feats : List String) :
    List Cell → Except String (List ℕ)
  | [] => .ok []
  | k :: ks =>
    if t.schema.contains "pct_moving" then
      let mov := movingIdxs t k
      if 50 < mov.length then
        match fit cfg.contamin_frac 42 (imputedData t feats mov) with
        | none => .error "ModelFitFailure"
        | some preds =>
          match mlLoop cfg fit t feats ks with
          | .ok rest =>
            .ok ((mov.zip preds).filterMap (fun p => if p.2 then some p.1 else none) ++ rest)
          | .error e => .error e
      else mlLoop cfg fit t feats ks
    else .error "KeyError: pct_moving"

/-- Layer 3 (lines 136-169): `ml_features` keeps the configured features
present in the table (line 136, silently dropping absent ones), then the
per-locomotive loop runs. -/
def mlFlagged (cfg : Config) (fit : MLOracle) (t : Table) : Except String (List ℕ) :=
  mlLoop cfg fit t (cfg.anomaly_features.filter (fun f => t.schema.contains f))
    (uniques (locoidCol t))

/-- All tag conditions of row `i` in append order: the six rules, then
the MAD features, then the single ML tag (line 168). -/
def rowConds (cfg : Config) (t : Table) (fl : List ℕ) (i : ℕ) : List (String × Bool) :=
  ruleConds cfg t i ++ madConds cfg t i ++ [("ML_ISOLATION", decide (i ∈ fl))]

/-- The tags accumulated in `anomaly_types` for row `i`, in append order. -/
def rowTags (cfg : Config) (t : Table) (fl : List ℕ) (i : ℕ) : List String :=
  (rowConds cfg t fl i).filterMap (fun p => if p.2 then some p.1 else none)

/-- The successive `anomaly_types += tag + ';'` appends of one row, as a
single string (associativity folds the appends into this recursion). -/
def tagsConcat : List String → String
  | [] => ""
  | tg :: ts => tg ++ ";" ++ tagsConcat ts

/-- Python `str.rstrip(';')` (line 187): drop every trailing `';'`. -/
def rstripSemi (s : String) : String :=
  ⟨(s.data.reverse.dropWhile (fun ch => ch == ';')).reverse⟩

/-- The final `anomaly_types` string of a row (appends, then line 187's
`rstrip(';')`). -/
def renderTags (l : List String) : String := rstripSemi (tagsConcat l)

/-- Every tag the detector can append, in append order: the six rule
tags, the three per-feature MAD tags, and the ML tag. -/
def allTagNames : List String :=
  ["HIGH_TEMP", "TEMP_SPIKE", "CURRENT_UNSTABLE", "LOW_BATTERY", "SPEED_JUMP",
   "LOW_PRESSURE", "MAD_TEMP_MOTOR1_1_MEAN", "MAD_CURRENT_U_MEAN",
   "MAD_PRESSURE_TR1_MEAN", "ML_ISOLATION"]

/-- One output row: the untouched input row plus the seven columns the
detector assigns (`df['anomaly_rule'] = 0` ... `df['is_anomaly']`,
including the intermediate `speed_change` of line 88, which is never
dropped before `to_parquet`).  Flags are the 0/1 integers the source
stores; a flag is 1 iff some condition of its layer fired (the `df.loc`
masked assignments of 1 over an initial 0 column). -/
structure OutRow where
  orig : Row
  anomaly_rule : ℕ
  anomaly_mad : ℕ
  anomaly_ml : ℕ
  anomaly_types : String
  speed_change : Cell
  anomaly_score : ℕ
  is_anomaly : ℕ
deriving DecidableEq

instance : Inhabited OutRow :=
  ⟨{ orig := [], anomaly_rule := 0, anomaly_mad := 0, anomaly_ml := 0,
     anomaly_types := "", speed_change := none, anomaly_score := 0, is_anomaly := 0 }⟩

/-- The persisted table: input schema plus the added columns, in
assignment order (lines 51-54, 88, 178, 184). -/
structure OutTable where
  schema : List String
  rows : List OutRow
deriving DecidableEq

/-- The seven columns the detector adds, in assignment order. -/
def newCols : List String :=
  ["anomaly_rule", "anomaly_mad", "anomaly_ml", "anomaly_types",
   "speed_change", "anomaly_score", "is_anomaly"]

/-- Score fusion for row `i` (lines 178-187): flags from the three
layers, `anomaly_score = 3*rule + 2*mad + 1*ml`,
`is_anomaly = (score >= 2)` as int, and the stripped tag string. -/
def buildRow (cfg : Config) (t : Table) (fl : List ℕ) (i : ℕ) : OutRow :=
  let ar := (ruleConds cfg t i).any (fun p => p.2)
  let am := (madConds cfg t i).any (fun p => p.2)
  let aml := decide (i ∈ fl)
  let sc := 3 * (if ar then 1 else 0) + 2 * (if am then 1 else 0) + (if aml then 1 else 0)
  { orig := rowAt t i
    anomaly_rule := if ar then 1 else 0
    anomaly_mad := if am then 1 else 0
    anomaly_ml := if aml then 1 else 0
    anomaly_types := renderTags (rowTags cfg t fl i)
    speed_change := speedChange t i
    anomaly_score := sc
    is_anomaly := if 2 ≤ sc then 1 else 0 }

/-- The full output table for a successful run. -/
def buildOut (cfg : Config) (t : Table) (fl : List ℕ) : OutTable :=
  { schema := t.schema ++ newCols
    rows := (List.range t.rows.length).map (buildRow cfg t fl) }

/-- The columns the run reads unconditionally, in first-access order
(lines 48, 64, 70, 76, 82, 88, 95); each read of an absent column is a
pandas KeyError. -/
def requiredRuleCols : List String :=
  ["locoid", "temp_motor1_1_max", "temp_motor1_1_rate", "current_u_std",
   "battery_volt_min", "avg_speed", "pressure_tr1_min"]

/-- Sequential column accesses: the first absent column raises. -/
def requireCols (t : Table) : List String → Except String Unit
  | [] => .ok ()
  | c :: cs => if t.schema.contains c then requireCols t cs else .error ("KeyError: " ++ c)

/-- `detect_anomalies` (anomaly_detection.py lines 22-209), from the
loaded DataFrame to the persisted one: the unconditional column reads in
source order, then the three detection layers (layers 1 and 2 are pure;
layer 3 can raise), then score fusion and the output table. -/
def detect_anomalies (cfg : Config) (fit : MLOracle) (t : Table) : Except String OutTable :=
  match requireCols t requiredRuleCols with
  | .error e => .error e
  | .ok _ =>
    match mlFlagged cfg fit t with
    | .error e => .error e
    | .ok fl => .ok (buildOut cfg t fl)

/-- Strict `<` between two cells; false when either is NULL (used to
state temporal ordering hypotheses decidably). -/
def cellLtCell (a b : Cell) : Bool :=
  match a, b with
  | some x, some y => decide (x < y)
  | _, _ => false

/-- The derived rate of one row:
`temp_motor1_1_mean - LAG(temp_motor1_1_mean) OVER (PARTITION BY locoid
ORDER BY ts)`; NULL for the first partition row or NULL operands. -/
def tempRateCell (t : Table) (i : ℕ) : Cell :=
  match prevSame t i with
  | none => none
  | some j =>
    match getCell (rowAt t i) "temp_motor1_1_mean",
          getCell (rowAt t j) "temp_motor1_1_mean" with
    | some a, some b => some (a - b)
    | _, _ => none

/-- feature_engineering.py lines 124-137: the derived-rate step applied
to `features_1min`, which is materialized `ORDER BY locoid, ts` with
unique `(locoid, ts)` keys, so the previous partition row in the LAG
window is the nearest preceding physical row of the same unit. -/
def addTempRate (t : Table) : Table :=
  { schema := t.schema ++ ["temp_motor1_1_rate"]
    rows := (List.range t.rows.length).map (fun i =>
      ("temp_motor1_1_rate", tempRateCell t i) :: rowAt t i) }

/-- A sample configuration (thresholds as in the repo's spirit; the exact
values are externally configured and the theorems quantify over them). -/
def cfg0 : Config :=
  { thresholds :=
      { temp_motor_max := 120, temp_motor_rate_max := 10, current_std_max := 50,
        battery_min := 20, speed_jump_max := 30, pressure_min := 5 }
    mad_threshold := 7 / 2
    anomaly_features := []
    contamin_frac := 1 / 100 }

/-- An oracle that predicts every row an inlier. -/
def okOracle : MLOracle := fun _ _ data => some (data.map (fun _ => false))

/-- An oracle that predicts every row an outlier. -/
def allOutOracle : MLOracle := fun _ _ data => some (data.map (fun _ => true))

/-- An oracle whose fit always fails (a numerical sklearn exception). -/
def failOracle : MLOracle := fun _ _ _ => none

/-- One fully-populated healthy feature row. -/
def row1 : Row :=
  [("locoid", some 1), ("temp_motor1_1_max", some 90), ("temp_motor1_1_rate", some 1),
   ("current_u_std", some 1), ("battery_volt_min", some 24), ("avg_speed", some 10),
   ("pressure_tr1_min", some 8), ("pct_moving", some 1),
   ("temp_motor1_1_mean", some 80), ("current_u_mean", some 3), ("pressure_tr1_mean", some 9)]

/-- A one-row table with every column the run can touch. -/
def tbl1 : Table :=
  { schema := requiredRuleCols ++
      ["pct_moving", "temp_motor1_1_mean", "current_u_mean", "pressure_tr1_mean"]
    rows := [row1] }

/-- The expected output of the healthy one-row run. -/
def out1 : OutTable := buildOut cfg0 tbl1 []

/-- A table whose schema lacks every configured MAD feature (only the
unconditionally accessed columns are present). -/
def tbl2 : Table := { schema := requiredRuleCols ++ ["pct_moving"], rows := [row1] }

/-- A table missing the rule-engine columns entirely. -/
def tblMissing : Table := { schema := ["locoid"], rows := [] }

/-- A one-row table with every rule-engine column but no `pct_moving`. -/
def tblNoPct : Table := { schema := requiredRuleCols, rows := [row1] }

/-- A minimal moving row of locomotive 1. -/
def row51 : Row := [("locoid", some 1), ("pct_moving", some 1)]

/-- A minimal moving row of locomotive 2. -/
def rowU2 : Row := [("locoid", some 2), ("pct_moving", some 1)]

/-- Two locomotives: unit 1 with 51 moving rows (enough for the ML layer
to fit a model) and unit 2 with a single row. -/
def tbl52 : Table :=
  { schema := requiredRuleCols ++ ["pct_moving"], rows := List.replicate 51 row51 ++ [rowU2] }

/-- Output of running `tbl52` with the all-outlier oracle: every moving
row of unit 1 is flagged. -/
def outA : OutTable := buildOut cfg0 tbl52 (List.range 51)

/-- A row of locomotive 1 carrying the constant MAD-feature value 5. -/
def rowC5 : Row := [("locoid", some 1), ("temp_motor1_1_mean", some 5)]

/-- A unit-feature group of 12 identical values (MAD = 0). -/
def tbl12 : Table :=
  { schema := ["locoid", "temp_motor1_1_mean"], rows := List.replicate 12 rowC5 }

/-- A far-outlier row for the same feature. -/
def rowOut : Row := [("locoid", some 1), ("temp_motor1_1_mean", some 1000)]

/-- A unit-feature group of 11 samples: ten copies of 5 and one far
outlier 1000 (its row index is 10). -/
def tbl11 : Table :=
  { schema := ["locoid", "temp_motor1_1_mean"], rows := List.replicate 10 rowC5 ++ [rowOut] }

/-- First temporal bucket of locomotive 1. -/
def row7a : Row :=
  [("locoid", some 1), ("ts", some 0), ("temp_motor1_1_mean", some 50),
   ("temp_motor1_1_max", some 90), ("current_u_std", some 1), ("battery_volt_min", some 24),
   ("avg_speed", some 10), ("pressure_tr1_min", some 8), ("pct_moving", some 1)]

/-- Second temporal bucket of locomotive 1. -/
def row7b : Row :=
  [("locoid", some 1), ("ts", some 1), ("temp_motor1_1_mean", some 60),
   ("temp_motor1_1_max", some 90), ("current_u_std", some 1), ("battery_volt_min", some 24),
   ("avg_speed", some 45), ("pressure_tr1_min", some 8), ("pct_moving", some 1)]

/-- A two-bucket feature table before the derived-rate step adds
`temp_motor1_1_rate`. -/
def tbl7 : Table :=
  { schema := ["locoid", "ts", "temp_motor1_1_mean", "temp_motor1_1_max", "current_u_std",
               "battery_volt_min", "avg_speed", "pressure_tr1_min", "pct_moving"]
    rows := [row7a, row7b] }

/-- Output of the composed feature-engineering + detection run on `tbl7`. -/
def out7 : OutTable := buildOut cfg0 (addTempRate tbl7) []

/-- The six columns the spec says are added (source names). -/
def specSixCols : List String :=
  ["anomaly_rule", "anomaly_mad", "anomaly_ml", "anomaly_types",
   "anomaly_score", "is_anomaly"]

/-- `row1` with an over-limit maximum motor temperature. -/
def rowHot : Row :=
  [("locoid", some 1), ("temp_motor1_1_max", some 130), ("temp_motor1_1_rate", some 1),
   ("current_u_std", some 1), ("battery_volt_min", some 24), ("avg_speed", some 10),
   ("pressure_tr1_min", some 8), ("pct_moving", some 1),
   ("temp_motor1_1_mean", some 80), ("current_u_mean", some 3), ("pressure_tr1_mean", some 9)]

/-- A one-row table that trips the high-temperature rule. -/
def tblHot : Table := { schema := tbl1.schema, rows := [rowHot] }

/-- The output of the hot run. -/
def outHot : OutTable := buildOut cfg0 tblHot []


/-- A successful run passes the column checks, a successful ML layer, and
produces exactly `buildOut` of its flag list. -/
lemma detect_ok_elim {cfg : Config} {fit : MLOracle} {t : Table} {out : OutTable}
    (h : detect_anomalies cfg fit t = .ok out) :
    ∃ fl, mlFlagged cfg fit t = .ok fl ∧ out = buildOut cfg t fl := by
  unfold detect_anomalies at h
  cases hr : requireCols t requiredRuleCols with
  | error e => rw [hr] at h; exact absurd h (by simp)
  | ok u =>
    rw [hr] at h
    cases hm : mlFlagged cfg fit t with
    | error e => rw [hm] at h; exact absurd h (by simp)
    | ok fl => rw [hm] at h; exact ⟨fl, rfl, (Except.ok.inj h).symm⟩

lemma buildOut_rows_length (cfg : Config) (t : Table) (fl : List ℕ) :
    (buildOut cfg t fl).rows.length = t.rows.length := by
  simp [buildOut]

lemma buildOut_row (cfg : Config) (t : Table) (fl : List ℕ) (i : ℕ)
    (hi : i < t.rows.length) :
    (buildOut cfg t fl).rows.getD i default = buildRow cfg t fl i := by
  unfold buildOut
  rw [List.getD_eq_getElem?_getD, List.getElem?_map, List.getElem?_range hi]
  rfl

/-- C1: for every output row, `anomaly_score` equals
`3*anomaly_rule + 2*anomaly_mad + 1*anomaly_ml` with every flag in {0,1}
(hence the score lies in 0..6), and `is_anomaly` is 1 exactly when the
score is at least 2 — so a row flagged only by the ML layer (score 1) is
not an anomaly. -/
theorem c1_score_fusion (cfg : Config) (fit : MLOracle) (t : Table) (out : OutTable)
    (h : detect_anomalies cfg fit t = .ok out) (i : ℕ) (hi : i < t.rows.length) :
    let r := out.rows.getD i default
    (r.anomaly_rule = 0 ∨ r.anomaly_rule = 1) ∧
    (r.anomaly_mad = 0 ∨ r.anomaly_mad = 1) ∧
    (r.anomaly_ml = 0 ∨ r.anomaly_ml = 1) ∧
    r.anomaly_score = 3 * r.anomaly_rule + 2 * r.anomaly_mad + r.anomaly_ml ∧
    r.anomaly_score ≤ 6 ∧
    (r.is_anomaly = if 2 ≤ r.anomaly_score then 1 else 0) ∧
    (r.anomaly_score = 1 → r.is_anomaly = 0) := by
  obtain ⟨fl, hml, rfl⟩ := detect_ok_elim h
  intro r
  show _ ∧ _ ∧ _ ∧ _ ∧ _ ∧ _ ∧ _
  have hrow : r = buildRow cfg t fl i := buildOut_row cfg t fl i hi
  rw [hrow]
  unfold buildRow
  cases (ruleConds cfg t i).any (fun p => p.2) <;>
    cases (madConds cfg t i).any (fun p => p.2) <;>
      cases decide (i ∈ fl) <;> simp

/-- Witness for C1: the healthy one-row run succeeds and row 0 satisfies
the fusion equations. -/
theorem c1_score_fusion_witness :
    detect_anomalies cfg0 okOracle tbl1 = .ok out1 ∧ 0 < tbl1.rows.length ∧
    ((out1.rows.getD 0 default).anomaly_score =
        3 * (out1.rows.getD 0 default).anomaly_rule +
          2 * (out1.rows.getD 0 default).anomaly_mad +
          (out1.rows.getD 0 default).anomaly_ml ∧
      (out1.rows.getD 0 default).anomaly_score ≤ 6) := by
  refine ⟨rfl, by decide, ?_, ?_⟩
  · exact (c1_score_fusion cfg0 okOracle tbl1 out1 rfl 0 (by decide)).2.2.2.1
  · exact (c1_score_fusion cfg0 okOracle tbl1 out1 rfl 0 (by decide)).2.2.2.2.1

lemma requireCols_error_of_missing {t : Table} :
    ∀ {cs : List String}, (∃ c ∈ cs, t.schema.contains c = false) →
      ∃ e, requireCols t cs = .error e := by
  intro cs
  induction cs with
  | nil => rintro ⟨c, hc, _⟩; exact absurd hc (by simp)
  | cons c cs ih =>
    rintro ⟨d, hd, hmiss⟩
    unfold requireCols
    by_cases hc : t.schema.contains c = true
    · rw [if_pos hc]
      rcases List.mem_cons.mp hd with rfl | hd'
      · rw [hmiss] at hc; cases hc
      · exact ih ⟨d, hd', hmiss⟩
    · rw [if_neg hc]
      exact ⟨_, rfl⟩

lemma requireCols_ok_of_present {t : Table} :
    ∀ {cs : List String}, (∀ c ∈ cs, t.schema.contains c = true) →
      requireCols t cs = .ok () := by
  intro cs
  induction cs with
  | nil => intro; rfl
  | cons c cs ih =>
    intro hall
    unfold requireCols
    rw [if_pos (hall c (List.mem_cons_self c cs))]
    exact ih (fun d hd => hall d (List.mem_cons_of_mem c hd))

lemma mlLoop_ok_of_total {cfg : Config} {fit : MLOracle} {t : Table} {feats : List String}
    (hp : t.schema.contains "pct_moving" = true)
    (htotal : ∀ a b d, fit a b d ≠ none) :
    ∀ (ks : List Cell), ∃ fl, mlLoop cfg fit t feats ks = .ok fl := by
  intro ks
  induction ks with
  | nil => exact ⟨[], rfl⟩
  | cons k ks ih =>
    obtain ⟨fl, hfl⟩ := ih
    unfold mlLoop
    rw [if_pos hp]
    by_cases hlen : 50 < (movingIdxs t k).length
    · rw [if_pos hlen]
      cases hfit : fit cfg.contamin_frac 42 (imputedData t feats (movingIdxs t k)) with
      | none => exact absurd hfit (htotal _ _ _)
      | some preds => rw [hfl]; exact ⟨_, rfl⟩
    · rw [if_neg hlen]
      exact ⟨fl, hfl⟩

lemma uniques_ne_nil {l : List Cell} (h : l ≠ []) : uniques l ≠ [] := by
  cases l with
  | nil => exact absurd rfl h
  | cons x xs => simp [uniques, uniquesAux]

/-- With at least one row (hence at least one group key to iterate), the
ML loop's very first `df.loc[loco_mask, 'pct_moving']` access raises when
the column is absent. -/
lemma mlFlagged_error_no_pct {cfg : Config} {fit : MLOracle} {t : Table}
    (hp : t.schema.contains "pct_moving" = false) (hne : t.rows ≠ []) :
    mlFlagged cfg fit t = .error "KeyError: pct_moving" := by
  unfold mlFlagged
  have hcol : locoidCol t ≠ [] := by
    unfold locoidCol
    intro hnil
    exact hne (List.map_eq_nil_iff.mp hnil)
  cases hu : uniques (locoidCol t) with
  | nil => exact absurd hu (uniques_ne_nil hcol)
  | cons k ks =>
    unfold mlLoop
    rw [if_neg (by rw [hp]; simp)]

/-- Counterexample to C2: `tbl2` lacks the configured MAD feature
`current_u_mean` (and the other two), yet `detect_anomalies` does not
fail with a schema error — it runs all layers and succeeds, silently
skipping the missing features. -/
theorem c2_counterexample :
    "current_u_mean" ∈ madFeatures ∧
    tbl2.schema.contains "current_u_mean" = false ∧
    detect_anomalies cfg0 okOracle tbl2 = .ok (buildOut cfg0 tbl2 []) := by
  refine ⟨by decide, by decide, rfl⟩

/-- C2 as amended: only the unconditionally read columns abort the run
with a KeyError — raised while the detection code runs, not by an
up-front schema check: a missing rule-engine field (or `locoid`) raises
during the rule layer, and a missing `pct_moving` raises on the first
iteration of the ML loop, i.e. only once at least one unit exists —
whereas when those columns are all present the run succeeds (for a
never-failing model fit) even if every configured MAD or ML feature is
absent: missing MAD features are skipped and missing ML features are
filtered out silently. -/
theorem c2_schema_handling (cfg : Config) (fit : MLOracle) (t : Table) :
    ((∃ c ∈ requiredRuleCols, t.schema.contains c = false) →
      ∃ e, detect_anomalies cfg fit t = .error e) ∧
    ((∀ c ∈ requiredRuleCols, t.schema.contains c = true) →
      t.schema.contains "pct_moving" = true →
      (∀ a b d, fit a b d ≠ none) →
      ∃ out, detect_anomalies cfg fit t = .ok out) ∧
    ((∀ c ∈ requiredRuleCols, t.schema.contains c = true) →
      t.schema.contains "pct_moving" = false →
      t.rows ≠ [] →
      detect_anomalies cfg fit t = .error "KeyError: pct_moving") := by
  refine ⟨?_, ?_, ?_⟩
  · intro hmiss
    obtain ⟨e, he⟩ := requireCols_error_of_missing hmiss
    exact ⟨e, by unfold detect_anomalies; rw [he]⟩
  · intro hall hp htotal
    obtain ⟨fl, hfl⟩ := mlLoop_ok_of_total hp htotal (uniques (locoidCol t))
    refine ⟨buildOut cfg t fl, ?_⟩
    unfold detect_anomalies
    rw [requireCols_ok_of_present hall]
    unfold mlFlagged
    rw [hfl]
  · intro hall hp hne
    unfold detect_anomalies
    rw [requireCols_ok_of_present hall, mlFlagged_error_no_pct hp hne]

/-- Witness for C2's amended statement: a table without the rule columns
errors, the fully populated table succeeds with a total oracle, and a
non-empty table with the rule columns but no `pct_moving` aborts with the
`pct_moving` KeyError. -/
theorem c2_schema_handling_witness :
    ("temp_motor1_1_max" ∈ requiredRuleCols ∧
      tblMissing.schema.contains "temp_motor1_1_max" = false ∧
      (∃ e, detect_anomalies cfg0 okOracle tblMissing = .error e)) ∧
    ((∀ c ∈ requiredRuleCols, tbl1.schema.contains c = true) ∧
      (∃ out, detect_anomalies cfg0 okOracle tbl1 = .ok out)) ∧
    ((∀ c ∈ requiredRuleCols, tblNoPct.schema.contains c = true) ∧
      tblNoPct.schema.contains "pct_moving" = false ∧ tblNoPct.rows ≠ [] ∧
      detect_anomalies cfg0 okOracle tblNoPct = .error "KeyError: pct_moving") := by
  refine ⟨⟨by decide, by decide, ?_⟩, ⟨by decide, ?_⟩, ⟨by decide, by decide, by decide, ?_⟩⟩
  · exact (c2_schema_handling cfg0 okOracle tblMissing).1
      ⟨"temp_motor1_1_max", by decide, by decide⟩
  · exact (c2_schema_handling cfg0 okOracle tbl1).2.1 (by decide) (by decide)
      (fun a b d => by simp [okOracle])
  · exact (c2_schema_handling cfg0 okOracle tblNoPct).2.2 (by decide) (by decide)
      (by decide)

/-- Counterexample to C3: with two locomotives, a model-fit failure on
unit 1 (the only unit large enough to be fitted) makes the whole
`detect_anomalies` run return an error — no output row is produced for
unit 2 or for any other layer, instead of the failure being logged and
skipped. -/
theorem c3_counterexample :
    detect_anomalies cfg0 failOracle tbl52 = .error "ModelFitFailure" ∧
    (uniques (locoidCol tbl52)).length = 2 ∧
    50 < (movingIdxs tbl52 (some 1)).length ∧
    (movingIdxs tbl52 (some 2)).length ≤ 50 := by
  refine ⟨rfl, by decide, by decide, by decide⟩

/-- C3 as amended: the source wraps no try/except around the per-entity
Isolation Forest call, so a fitting/prediction failure for one entity
propagates: the whole run returns that error and no entity receives any
output. -/
theorem c3_ml_failure_aborts (cfg : Config) (fit : MLOracle) (t : Table) (e : String)
    (hok : requireCols t requiredRuleCols = .ok ())
    (hm : mlFlagged cfg fit t = .error e) :
    detect_anomalies cfg fit t = .error e := by
  unfold detect_anomalies
  rw [hok, hm]

/-- Witness for C3's amended statement on the two-locomotive table. -/
theorem c3_ml_failure_aborts_witness :
    requireCols tbl52 requiredRuleCols = .ok () ∧
    mlFlagged cfg0 failOracle tbl52 = .error "ModelFitFailure" ∧
    detect_anomalies cfg0 failOracle tbl52 = .error "ModelFitFailure" :=
  ⟨rfl, rfl, c3_ml_failure_aborts cfg0 failOracle tbl52 "ModelFitFailure" rfl rfl⟩

lemma mem_locoIdxs {t : Table} {k : Cell} {i : ℕ} :
    i ∈ locoIdxs t k ↔
      i < t.rows.length ∧ cellEq (getCell (rowAt t i) "locoid") k = true := by
  simp [locoIdxs, List.mem_filter, List.mem_range]

lemma mem_movingIdxs {t : Table} {k : Cell} {i : ℕ} :
    i ∈ movingIdxs t k ↔
      i ∈ locoIdxs t k ∧ cellGT (getCell (rowAt t i) "pct_moving") (1 / 2) = true := by
  simp [movingIdxs, List.mem_filter]

lemma cellEq_eq {a b : Cell} (h : cellEq a b = true) : a = b := by
  cases a with
  | none => cases b <;> simp [cellEq] at h
  | some x =>
    cases b with
    | none => simp [cellEq] at h
    | some y => simp [cellEq] at h; rw [h]

/-- Every index the ML loop flags lies among the moving rows of a group
that passed the more-than-50-moving-rows guard. -/
lemma mlLoop_ok_mem {cfg : Config} {fit : MLOracle} {t : Table} {feats : List String} :
    ∀ {ks : List Cell} {fl : List ℕ}, mlLoop cfg fit t feats ks = .ok fl →
      ∀ i ∈ fl, ∃ k ∈ ks, i ∈ movingIdxs t k ∧ 50 < (movingIdxs t k).length := by
  intro ks
  induction ks with
  | nil =>
    intro fl h i hi
    unfold mlLoop at h
    cases h
    simp at hi
  | cons k ks ih =>
    intro fl h i hi
    unfold mlLoop at h
    by_cases hp : t.schema.contains "pct_moving" = true
    · rw [if_pos hp] at h
      by_cases hlen : 50 < (movingIdxs t k).length
      · rw [if_pos hlen] at h
        cases hfit : fit cfg.contamin_frac 42 (imputedData t feats (movingIdxs t k)) with
        | none => rw [hfit] at h; exact absurd h (by simp)
        | some preds =>
          rw [hfit] at h
          cases hrest : mlLoop cfg fit t feats ks with
          | error e => rw [hrest] at h; exact absurd h (by simp)
          | ok rest =>
            rw [hrest] at h
            have hfl : ((movingIdxs t k).zip preds).filterMap
                (fun p => if p.2 then some p.1 else none) ++ rest = fl := Except.ok.inj h
            rw [← hfl] at hi
            rcases List.mem_append.mp hi with hin | hr
            · obtain ⟨p, hpmem, hpi⟩ := List.mem_filterMap.mp hin
              by_cases hb : p.2 = true
              · rw [if_pos hb] at hpi
                have h1 : p.1 = i := Option.some.inj hpi
                rcases p with ⟨a, b⟩
                have hmem := (List.of_mem_zip hpmem).1
                exact ⟨k, List.mem_cons_self k ks, h1 ▸ hmem, hlen⟩
              · rw [if_neg hb] at hpi; cases hpi
            · obtain ⟨q, hq, hqm⟩ := ih hrest i hr
              exact ⟨q, List.mem_cons_of_mem k hq, hqm⟩
      · rw [if_neg hlen] at h
        obtain ⟨q, hq, hqm⟩ := ih h i hi
        exact ⟨q, List.mem_cons_of_mem k hq, hqm⟩
    · rw [if_neg hp] at h
      exact absurd h (by simp)

/-- C4: a row carries `anomaly_ml = 1` only if its own movement fraction
exceeds 0.5 and its locomotive has strictly more than 50 such moving rows
— so a unit with at most 50 (in particular, fewer than 50) moving rows
never has an ML flag, and a stationary or missing-`pct_moving` row never
receives one, whatever the fitted model predicts. -/
theorem c4_ml_flag_scope (cfg : Config) (fit : MLOracle) (t : Table) (out : OutTable)
    (h : detect_anomalies cfg fit t = .ok out) (i : ℕ) (hi : i < t.rows.length)
    (hml : (out.rows.getD i default).anomaly_ml = 1) :
    cellGT (getCell (rowAt t i) "pct_moving") (1 / 2) = true ∧
    50 < (movingIdxs t (getCell (rowAt t i) "locoid")).length := by
  obtain ⟨fl, hm, rfl⟩ := detect_ok_elim h
  rw [buildOut_row cfg t fl i hi] at hml
  unfold buildRow at hml
  have hifl : i ∈ fl := by
    by_cases hmem : i ∈ fl
    · exact hmem
    · simp [hmem] at hml
  unfold mlFlagged at hm
  obtain ⟨k, _, hmov, hlen⟩ := mlLoop_ok_mem hm i hifl
  have h1 := mem_movingIdxs.mp hmov
  have h3 : getCell (rowAt t i) "locoid" = k := cellEq_eq (mem_locoIdxs.mp h1.1).2
  exact ⟨h1.2, by rw [h3]; exact hlen⟩

/-- Witness for C4: with the all-outlier oracle on the two-locomotive
table, row 0 is ML-flagged, moving, and in a unit with 51 moving rows. -/
theorem c4_ml_flag_scope_witness :
    detect_anomalies cfg0 allOutOracle tbl52 = .ok outA ∧ 0 < tbl52.rows.length ∧
    (outA.rows.getD 0 default).anomaly_ml = 1 ∧
    cellGT (getCell (rowAt tbl52 0) "pct_moving") (1 / 2) = true ∧
    50 < (movingIdxs tbl52 (getCell (rowAt tbl52 0) "locoid")).length := by
  have h : detect_anomalies cfg0 allOutOracle tbl52 = .ok outA := rfl
  have hc := c4_ml_flag_scope cfg0 allOutOracle tbl52 outA h 0 (by decide) (by decide)
  exact ⟨h, by decide, by decide, hc.1, hc.2⟩

lemma getD_mem_of_lt {l : List ℚ} {j : ℕ} (h : j < l.length) : l.getD j 0 ∈ l := by
  rw [List.getD_eq_getElem?_getD, List.getElem?_eq_getElem h]
  exact List.getElem_mem h

/-- A constant list's pandas median is the constant. -/
lemma pandasMedian_const {l : List ℚ} {c : ℚ} (hne : l ≠ [])
    (hc : ∀ x ∈ l, x = c) : pandasMedian l = some c := by
  unfold pandasMedian
  have hlen : (List.insertionSort (· ≤ ·) l).length = l.length :=
    List.length_insertionSort _ l
  have hs : ∀ x ∈ List.insertionSort (· ≤ ·) l, x = c := fun x hx =>
    hc x ((List.mem_insertionSort _).mp hx)
  have hn0 : ¬ l.length = 0 := by simpa using hne
  rw [if_neg hn0]
  by_cases hpar : l.length % 2 = 1
  · rw [if_pos hpar]
    have hb : l.length / 2 < (List.insertionSort (· ≤ ·) l).length := by
      rw [hlen]; omega
    rw [hs _ (getD_mem_of_lt hb)]
  · rw [if_neg hpar]
    have hb1 : l.length / 2 - 1 < (List.insertionSort (· ≤ ·) l).length := by
      rw [hlen]; omega
    have hb2 : l.length / 2 < (List.insertionSort (· ≤ ·) l).length := by
      rw [hlen]; omega
    rw [hs _ (getD_mem_of_lt hb1), hs _ (getD_mem_of_lt hb2)]
    congr 1
    ring

/-- In a sorted list with at most one element different from `c`, every
interior position holds `c` (the odd element, if any, sits at an end). -/
lemma sorted_interior_const (c : ℚ) (s : List ℚ) :
    List.Sorted (· ≤ ·) s →
    (s.filter (fun x => decide (x ≠ c))).length ≤ 1 →
    ∀ (j : ℕ), j + 2 < s.length → s.getD (j + 1) 0 = c := by
  induction s with
  | nil => intro _ _ j h2; simp at h2
  | cons x xs ih =>
    intro hsort hone j h2
    have hx_le : ∀ b ∈ xs, x ≤ b := List.rel_of_sorted_cons hsort
    have hsxs : List.Sorted (· ≤ ·) xs := hsort.of_cons
    rw [List.getD_cons_succ]
    by_cases hx : x = c
    · subst hx
      have hone' : (xs.filter (fun y => decide (y ≠ x))).length ≤ 1 := by
        have h0 : (x :: xs).filter (fun y => decide (y ≠ x)) =
            xs.filter (fun y => decide (y ≠ x)) := by
          simp [List.filter_cons]
        rwa [h0] at hone
      match j with
      | 0 =>
        have hxl : 1 < xs.length := by simp at h2; omega
        cases xs with
        | nil => simp at hxl
        | cons z zs =>
          rw [List.getD_cons_zero]
          have hmem : x ∈ z :: zs := by
            by_contra hnc
            have hall : ∀ y ∈ z :: zs, (fun y => decide (y ≠ x)) y = true := by
              intro y hy
              simp only [decide_eq_true_eq]
              rintro rfl
              exact hnc hy
            have hself := List.filter_eq_self.mpr hall
            rw [hself] at hone'
            omega
          have hzc : z ≤ x := by
            rcases List.mem_cons.mp hmem with heq | hzs
            · exact le_of_eq heq.symm
            · exact List.rel_of_sorted_cons hsxs x hzs
          exact le_antisymm hzc (hx_le z (List.mem_cons_self z zs))
      | Nat.succ j' =>
        exact ih hsxs hone' j' (by simp at h2 ⊢; omega)
    · have hxs_c : ∀ y ∈ xs, y = c := by
        have hcons : (x :: xs).filter (fun y => decide (y ≠ c)) =
            x :: xs.filter (fun y => decide (y ≠ c)) := by
          simp [List.filter_cons, hx]
        rw [hcons] at hone
        simp only [List.length_cons] at hone
        have hnil : xs.filter (fun y => decide (y ≠ c)) = [] :=
          List.eq_nil_of_length_eq_zero (by omega)
        intro y hy
        by_contra hyc
        have : y ∈ xs.filter (fun y => decide (y ≠ c)) :=
          List.mem_filter.mpr ⟨hy, by simpa⟩
        rw [hnil] at this
        simp at this
      have hj : j < xs.length := by simp at h2; omega
      exact hxs_c _ (getD_mem_of_lt hj)

/-- A list of ≥ 3 elements with at most one element different from `c`
has pandas median `c`. -/
lemma pandasMedian_near_const {l : List ℚ} {c : ℚ} (h3 : 3 ≤ l.length)
    (hone : (l.filter (fun x => decide (x ≠ c))).length ≤ 1) :
    pandasMedian l = some c := by
  unfold pandasMedian
  have hsort := List.sorted_insertionSort (· ≤ ·) l
  have hperm := List.perm_insertionSort (· ≤ ·) l
  have hlen : (List.insertionSort (· ≤ ·) l).length = l.length :=
    List.length_insertionSort _ l
  have hfil : ((List.insertionSort (· ≤ ·) l).filter
      (fun x => decide (x ≠ c))).length ≤ 1 := by
    rw [(hperm.filter _).length_eq]
    exact hone
  have hint := sorted_interior_const c _ hsort hfil
  have hn0 : ¬ l.length = 0 := by omega
  rw [if_neg hn0]
  by_cases hpar : l.length % 2 = 1
  · rw [if_pos hpar]
    have := hint (l.length / 2 - 1) (by rw [hlen]; omega)
    rw [show l.length / 2 - 1 + 1 = l.length / 2 by omega] at this
    rw [this]
  · rw [if_neg hpar]
    have h1 := hint (l.length / 2 - 2) (by rw [hlen]; omega)
    have h2 := hint (l.length / 2 - 1) (by rw [hlen]; omega)
    rw [show l.length / 2 - 2 + 1 = l.length / 2 - 1 by omega] at h1
    rw [show l.length / 2 - 1 + 1 = l.length / 2 by omega] at h2
    rw [h1, h2]
    congr 1
    ring

/-- `calculate_mad` of a constant non-empty list is (constant, 0). -/
lemma calculate_mad_const {l : List ℚ} {c : ℚ} (hne : l ≠ [])
    (hc : ∀ x ∈ l, x = c) : calculate_mad l = (some c, some 0) := by
  unfold calculate_mad
  rw [pandasMedian_const hne hc]
  show (some c, pandasMedian (l.map (fun x => |x - c|))) = (some c, some 0)
  have hdev : ∀ y ∈ l.map (fun x => |x - c|), y = 0 := by
    intro y hy
    obtain ⟨x, hx, rfl⟩ := List.mem_map.mp hy
    rw [hc x hx]
    simp
  rw [pandasMedian_const (by simpa using hne) hdev]

/-- `calculate_mad` of a near-constant list (at most one exceptional
element, ≥ 3 elements) is (constant, 0): the single deviation cannot move
either median. -/
lemma calculate_mad_near_const {l : List ℚ} {c : ℚ} (h3 : 3 ≤ l.length)
    (hone : (l.filter (fun x => decide (x ≠ c))).length ≤ 1) :
    calculate_mad l = (some c, some 0) := by
  unfold calculate_mad
  rw [pandasMedian_near_const h3 hone]
  show (some c, pandasMedian (l.map (fun x => |x - c|))) = (some c, some 0)
  have hmap : (l.map (fun x => |x - c|)).filter (fun y => decide (y ≠ 0)) =
      (l.filter (fun x => decide (x ≠ c))).map (fun x => |x - c|) := by
    rw [List.filter_map]
    congr 1
    apply List.filter_congr
    intro x _
    simp [Function.comp, sub_eq_zero, abs_eq_zero]
  have hone' : ((l.map (fun x => |x - c|)).filter
      (fun y => decide (y ≠ 0))).length ≤ 1 := by
    rw [hmap, List.length_map]
    exact hone
  rw [pandasMedian_near_const (by rw [List.length_map]; omega) hone']

/-- If the MAD of row `i`'s (entity, feature) group is 0, the guard
`mad > 0` fails and the feature raises no flag on row `i`. -/
lemma mad_zero_no_flag (cfg : Config) (t : Table) (i : ℕ) (f : String)
    (h : (calculate_mad (dropna
        (groupVals t (getCell (rowAt t i) "locoid") f))).2 = some 0) :
    madFlagFeature cfg t i f = false := by
  unfold madFlagFeature
  rw [List.any_eq_false]
  intro k hk
  by_cases hce : cellEq (getCell (rowAt t i) "locoid") k = true
  · have hkey : getCell (rowAt t i) "locoid" = k := cellEq_eq hce
    rw [← hkey] at hk ⊢
    have hms : madStats t (getCell (rowAt t i) "locoid") f = none := by
      unfold madStats
      by_cases hcf : t.schema.contains f = true
      · rw [if_pos hcf]
        by_cases hl : 10 < (dropna (groupVals t (getCell (rowAt t i) "locoid") f)).length
        · rw [if_pos hl]
          cases hcm : calculate_mad (dropna
              (groupVals t (getCell (rowAt t i) "locoid") f)) with
          | mk a b =>
            have hb : b = some 0 := by rw [hcm] at h; exact h
            subst hb
            cases a with
            | none => rfl
            | some m => simp
        · rw [if_neg hl]
      · rw [if_neg hcf]
    simp [hms]
  · simp [hce]

/-- C5: an (entity, feature) group whose MAD is 0 is skipped — no row of
that group is MAD-flagged for that feature — and a group of identical
values (such as 12 equal samples) always has MAD 0, so it raises no flags
no matter how large a single value's deviation would look. -/
theorem c5_mad_zero_group_skipped :
    (∀ (cfg : Config) (t : Table) (i : ℕ) (f : String),
      (calculate_mad (dropna
          (groupVals t (getCell (rowAt t i) "locoid") f))).2 = some 0 →
      madFlagFeature cfg t i f = false) ∧
    (∀ (l : List ℚ) (c : ℚ), l ≠ [] → (∀ x ∈ l, x = c) →
      calculate_mad l = (some c, some 0)) :=
  ⟨mad_zero_no_flag, fun _ _ hne hc => calculate_mad_const hne hc⟩

/-- Witness for C5: 12 identical values (all 5) for locomotive 1 — the
MAD is 0 and the feature flags nothing. -/
theorem c5_mad_zero_group_skipped_witness :
    (calculate_mad (dropna
        (groupVals tbl12 (getCell (rowAt tbl12 0) "locoid") "temp_motor1_1_mean"))).2 =
      some 0 ∧
    madFlagFeature cfg0 tbl12 0 "temp_motor1_1_mean" = false ∧
    calculate_mad (dropna (groupVals tbl12 (some 1) "temp_motor1_1_mean")) =
      (some 5, some 0) := by
  refine ⟨by decide, ?_, ?_⟩
  · exact (c5_mad_zero_group_skipped).1 cfg0 tbl12 0 "temp_motor1_1_mean" (by decide)
  · exact (c5_mad_zero_group_skipped).2
      (dropna (groupVals tbl12 (some 1) "temp_motor1_1_mean")) 5 (by decide) (by decide)

/-- Counterexample to C6: a unit-feature group of 11 samples, ten equal
to 5 and one far outlier 1000.  The group has more than 10 samples and a
single far outlier, yet its MAD is 0 (ten of the eleven absolute
deviations are 0, so the deviation median is 0) — the MAD > 0 premise of
the claim is unsatisfiable for such a group — and the outlier row
(index 10) does NOT receive the MAD flag: the pair is skipped. -/
theorem c6_counterexample :
    (dropna (groupVals tbl11 (some 1) "temp_motor1_1_mean")).length = 11 ∧
    ((dropna (groupVals tbl11 (some 1) "temp_motor1_1_mean")).filter
        (fun x => decide (x ≠ 5))).length = 1 ∧
    calculate_mad (dropna (groupVals tbl11 (some 1) "temp_motor1_1_mean")) =
      (some 5, some 0) ∧
    madFlagFeature cfg0 tbl11 10 "temp_motor1_1_mean" = false := by
  refine ⟨by decide, by decide, by decide, by decide⟩

/-- C6 as amended: a unit-feature group of more than 10 samples in which
all values equal one constant except at most a single outlier necessarily
has MAD = 0, so the (entity, feature) pair is skipped and no row of the
group — the outlier included — receives the MAD flag for that feature.
(The claim's `MAD > 0` premise cannot hold in this scenario: with at
least 10 of the ≥ 11 deviations equal to 0, the median deviation is 0.) -/
theorem c6_single_outlier_group (cfg : Config) (t : Table) (f : String) (k : Cell) (c : ℚ)
    (hlen : 10 < (dropna (groupVals t k f)).length)
    (hone : ((dropna (groupVals t k f)).filter (fun x => decide (x ≠ c))).length ≤ 1) :
    (calculate_mad (dropna (groupVals t k f))).2 = some 0 ∧
    ∀ i : ℕ, getCell (rowAt t i) "locoid" = k → madFlagFeature cfg t i f = false := by
  have hmad := calculate_mad_near_const (l := dropna (groupVals t k f)) (by omega) hone
  constructor
  · rw [hmad]
  · intro i hkey
    apply mad_zero_no_flag
    rw [hkey, hmad]

/-- Witness for C6's amended statement on the concrete 11-sample group. -/
theorem c6_single_outlier_group_witness :
    10 < (dropna (groupVals tbl11 (some 1) "temp_motor1_1_mean")).length ∧
    ((dropna (groupVals tbl11 (some 1) "temp_motor1_1_mean")).filter
        (fun x => decide (x ≠ 5))).length ≤ 1 ∧
    getCell (rowAt tbl11 10) "locoid" = some 1 ∧
    (calculate_mad (dropna (groupVals tbl11 (some 1) "temp_motor1_1_mean"))).2 = some 0 ∧
    madFlagFeature cfg0 tbl11 10 "temp_motor1_1_mean" = false := by
  have h := c6_single_outlier_group cfg0 tbl11 "temp_motor1_1_mean" (some 1) 5
    (by decide) (by decide)
  exact ⟨by decide, by decide, by decide, h.1, h.2 10 (by decide)⟩


lemma getCell_cons_self {n : String} {v : Cell} {r : Row} :
    getCell ((n, v) :: r) n = v := by
  simp [getCell, List.lookup]

lemma getCell_cons_ne {n : String} {v : Cell} {r : Row} {c : String} (h : c ≠ n) :
    getCell ((n, v) :: r) c = getCell r c := by
  have hbeq : (c == n) = false := beq_eq_false_iff_ne.mpr h
  simp [getCell, List.lookup, hbeq]

lemma addTempRate_rows_length (t : Table) :
    (addTempRate t).rows.length = t.rows.length := by
  simp [addTempRate]

lemma rowAt_addTempRate (t : Table) (i : ℕ) (hi : i < t.rows.length) :
    rowAt (addTempRate t) i = ("temp_motor1_1_rate", tempRateCell t i) :: rowAt t i := by
  unfold rowAt addTempRate
  rw [List.getD_eq_getElem?_getD, List.getElem?_map, List.getElem?_range hi]
  rfl

lemma getCell_addTempRate_other (t : Table) (i : ℕ) (c : String)
    (hc : c ≠ "temp_motor1_1_rate") (hi : i < t.rows.length) :
    getCell (rowAt (addTempRate t) i) c = getCell (rowAt t i) c := by
  rw [rowAt_addTempRate t i hi, getCell_cons_ne hc]

lemma find?_congr_mem {α : Type} {p q : α → Bool} :
    ∀ {l : List α}, (∀ x ∈ l, p x = q x) → l.find? p = l.find? q := by
  intro l
  induction l with
  | nil => intro; rfl
  | cons x xs ih =>
    intro h
    rw [List.find?_cons, List.find?_cons, h x (List.mem_cons_self x xs)]
    cases q x with
    | true => rfl
    | false => exact ih (fun y hy => h y (List.mem_cons_of_mem x hy))

lemma prevSame_lt {t : Table} {i j : ℕ} (h : prevSame t i = some j) : j < i := by
  unfold prevSame at h
  have hm := List.mem_of_find?_eq_some h
  rw [List.mem_reverse] at hm
  exact List.mem_range.mp hm

lemma prevSame_addTempRate (t : Table) (i : ℕ) (hi : i < t.rows.length) :
    prevSame (addTempRate t) i = prevSame t i := by
  unfold prevSame
  apply find?_congr_mem
  intro j hj
  rw [List.mem_reverse] at hj
  have hji : j < i := List.mem_range.mp hj
  rw [getCell_addTempRate_other t j "locoid" (by decide) (by omega),
      getCell_addTempRate_other t i "locoid" (by decide) hi]

lemma speedChange_addTempRate (t : Table) (i : ℕ) (hi : i < t.rows.length) :
    speedChange (addTempRate t) i = speedChange t i := by
  unfold speedChange
  rw [prevSame_addTempRate t i hi]
  cases hp : prevSame t i with
  | none => rfl
  | some j =>
    have hj : j < t.rows.length := lt_trans (prevSame_lt hp) hi
    show (match getCell (rowAt (addTempRate t) i) "avg_speed",
               getCell (rowAt (addTempRate t) j) "avg_speed" with
          | some a, some b => some |a - b|
          | _, _ => none) =
        (match getCell (rowAt t i) "avg_speed", getCell (rowAt t j) "avg_speed" with
          | some a, some b => some |a - b|
          | _, _ => none)
    rw [getCell_addTempRate_other t i "avg_speed" (by decide) hi,
        getCell_addTempRate_other t j "avg_speed" (by decide) hj]

/-- A `TEMP_SPIKE` tag on row `i` comes only from the rate rule firing. -/
lemma spike_tag_requires {cfg : Config} {t : Table} {fl : List ℕ} {i : ℕ}
    (h : "TEMP_SPIKE" ∈ rowTags cfg t fl i) :
    cellGT (cellAbs (getCell (rowAt t i) "temp_motor1_1_rate"))
      cfg.thresholds.temp_motor_rate_max = true := by
  unfold rowTags at h
  obtain ⟨p, hp, hcond⟩ := List.mem_filterMap.mp h
  have hb : p.2 = true := by
    by_cases hb : p.2 = true
    · exact hb
    · rw [if_neg hb] at hcond; cases hcond
  rw [if_pos hb] at hcond
  have hname : p.1 = "TEMP_SPIKE" := Option.some.inj hcond
  unfold rowConds ruleConds madConds madFeatures at hp
  simp only [List.mem_append, List.mem_cons, List.mem_map, List.mem_singleton,
    List.not_mem_nil, or_false] at hp
  rcases hp with ((hp | hp | hp | hp | hp | hp) | hp) | hp
  · rw [hp] at hname; simp at hname
  · rw [hp] at hb; exact hb
  · rw [hp] at hname; simp at hname
  · rw [hp] at hname; simp at hname
  · rw [hp] at hname; simp at hname
  · rw [hp] at hname; simp at hname
  · obtain ⟨f, hf, hpeq⟩ := hp
    have hname2 : "MAD_" ++ strUpper f = p.1 := by rw [← hpeq]
    rw [hname] at hname2
    rcases hf with rfl | rfl | rfl <;> exact absurd hname2 (by decide)
  · rw [hp] at hname; simp at hname

/-- A `SPEED_JUMP` tag on row `i` comes only from the speed-jump rule
firing. -/
lemma jump_tag_requires {cfg : Config} {t : Table} {fl : List ℕ} {i : ℕ}
    (h : "SPEED_JUMP" ∈ rowTags cfg t fl i) :
    cellGT (speedChange t i) cfg.thresholds.speed_jump_max = true := by
  unfold rowTags at h
  obtain ⟨p, hp, hcond⟩ := List.mem_filterMap.mp h
  have hb : p.2 = true := by
    by_cases hb : p.2 = true
    · exact hb
    · rw [if_neg hb] at hcond; cases hcond
  rw [if_pos hb] at hcond
  have hname : p.1 = "SPEED_JUMP" := Option.some.inj hcond
  unfold rowConds ruleConds madConds madFeatures at hp
  simp only [List.mem_append, List.mem_cons, List.mem_map, List.mem_singleton,
    List.not_mem_nil, or_false] at hp
  rcases hp with ((hp | hp | hp | hp | hp | hp) | hp) | hp
  · rw [hp] at hname; simp at hname
  · rw [hp] at hname; simp at hname
  · rw [hp] at hname; simp at hname
  · rw [hp] at hname; simp at hname
  · rw [hp] at hb; exact hb
  · rw [hp] at hname; simp at hname
  · obtain ⟨f, hf, hpeq⟩ := hp
    have hname2 : "MAD_" ++ strUpper f = p.1 := by rw [← hpeq]
    rw [hname] at hname2
    rcases hf with rfl | rfl | rfl <;> exact absurd hname2 (by decide)
  · rw [hp] at hname; simp at hname

/-- C7: on a feature table whose physical order is temporally increasing
within each unit (as `features_1min` is materialized), a row that is the
first temporal bucket of its unit has NULL derived rate and NULL grouped
speed difference after the derived-rate step, so it never triggers the
temperature rate-of-change rule or the speed-jump rule of
`detect_anomalies`, whatever its sensor values: neither the `TEMP_SPIKE`
nor the `SPEED_JUMP` tag can appear on it. -/
theorem c7_first_bucket (cfg : Config) (fit : MLOracle) (t : Table) (out : OutTable)
    (hs : ∀ k, k < t.rows.length → ∀ j, j < k →
      cellEq (getCell (rowAt t j) "locoid") (getCell (rowAt t k) "locoid") = true →
      cellLtCell (getCell (rowAt t j) "ts") (getCell (rowAt t k) "ts") = true)
    (i : ℕ) (hi : i < t.rows.length)
    (hfb : ∀ j, j < t.rows.length → j ≠ i →
      cellEq (getCell (rowAt t j) "locoid") (getCell (rowAt t i) "locoid") = true →
      cellLtCell (getCell (rowAt t i) "ts") (getCell (rowAt t j) "ts") = true)
    (h : detect_anomalies cfg fit (addTempRate t) = .ok out) :
    cellGT (cellAbs (getCell (rowAt (addTempRate t) i) "temp_motor1_1_rate"))
      cfg.thresholds.temp_motor_rate_max = false ∧
    cellGT (speedChange (addTempRate t) i) cfg.thresholds.speed_jump_max = false ∧
    ∃ fl, mlFlagged cfg fit (addTempRate t) = .ok fl ∧
      (out.rows.getD i default).anomaly_types =
        renderTags (rowTags cfg (addTempRate t) fl i) ∧
      "TEMP_SPIKE" ∉ rowTags cfg (addTempRate t) fl i ∧
      "SPEED_JUMP" ∉ rowTags cfg (addTempRate t) fl i := by
  have hnone : ∀ j, j < i →
      cellEq (getCell (rowAt t j) "locoid") (getCell (rowAt t i) "locoid") = false := by
    intro j hj
    by_contra hne
    have htrue : cellEq (getCell (rowAt t j) "locoid")
        (getCell (rowAt t i) "locoid") = true := by
      cases hcc : cellEq (getCell (rowAt t j) "locoid") (getCell (rowAt t i) "locoid")
      · exact absurd hcc hne
      · rfl
    have h1 := hs i hi j hj htrue
    have h2 := hfb j (lt_trans hj hi) (Nat.ne_of_lt hj) htrue
    unfold cellLtCell at h1 h2
    cases hts1 : getCell (rowAt t j) "ts" with
    | none => rw [hts1] at h1; simp at h1
    | some a =>
      cases hts2 : getCell (rowAt t i) "ts" with
      | none => rw [hts1, hts2] at h1; simp at h1
      | some b =>
        rw [hts1, hts2] at h1 h2
        simp at h1 h2
        exact absurd (lt_trans h1 h2) (lt_irrefl a)
  have hprev : prevSame t i = none := by
    unfold prevSame
    apply List.find?_eq_none.mpr
    intro j hj
    rw [List.mem_reverse] at hj
    rw [hnone j (List.mem_range.mp hj)]
    simp
  have hrate : getCell (rowAt (addTempRate t) i) "temp_motor1_1_rate" = none := by
    rw [rowAt_addTempRate t i hi, getCell_cons_self]
    unfold tempRateCell
    rw [hprev]
  have hspeed : speedChange (addTempRate t) i = none := by
    rw [speedChange_addTempRate t i hi]
    unfold speedChange
    rw [hprev]
  refine ⟨by rw [hrate]; rfl, by rw [hspeed]; rfl, ?_⟩
  obtain ⟨fl, hml, rfl⟩ := detect_ok_elim h
  refine ⟨fl, hml, ?_, ?_, ?_⟩
  · rw [buildOut_row cfg (addTempRate t) fl i (by rw [addTempRate_rows_length]; exact hi)]
    rfl
  · intro hmem
    have hfired := spike_tag_requires hmem
    rw [hrate] at hfired
    exact absurd hfired (by simp [cellAbs, cellGT])
  · intro hmem
    have hfired := jump_tag_requires hmem
    rw [hspeed] at hfired
    exact absurd hfired (by simp [cellGT])

/-- Witness for C7 on a concrete two-bucket table: row 0 is its unit's
first bucket; neither the rate rule nor the speed-jump rule fires, even
though row 1 (same unit, later bucket) carries a large speed change. -/
theorem c7_first_bucket_witness :
    detect_anomalies cfg0 okOracle (addTempRate tbl7) = .ok out7 ∧
    0 < tbl7.rows.length ∧
    cellGT (cellAbs (getCell (rowAt (addTempRate tbl7) 0) "temp_motor1_1_rate"))
      cfg0.thresholds.temp_motor_rate_max = false ∧
    cellGT (speedChange (addTempRate tbl7) 0) cfg0.thresholds.speed_jump_max = false := by
  have h : detect_anomalies cfg0 okOracle (addTempRate tbl7) = .ok out7 := rfl
  have hc := c7_first_bucket cfg0 okOracle tbl7 out7 (by decide) 0 (by decide) (by decide) h
  exact ⟨h, by decide, hc.1, hc.2.1⟩

lemma filterMap_if_sublist (l : List (String × Bool)) :
    (l.filterMap (fun p => if p.2 then some p.1 else none)).Sublist (l.map Prod.fst) := by
  induction l with
  | nil => exact List.Sublist.refl _
  | cons p ps ih =>
    rw [List.filterMap_cons, List.map_cons]
    by_cases hb : p.2 = true
    · rw [if_pos hb]
      exact List.Sublist.cons₂ _ ih
    · rw [if_neg hb]
      exact List.Sublist.cons _ ih

lemma rowConds_fst (cfg : Config) (t : Table) (fl : List ℕ) (i : ℕ) :
    (rowConds cfg t fl i).map Prod.fst = allTagNames := by
  have h1 : "MAD_" ++ strUpper "temp_motor1_1_mean" = "MAD_TEMP_MOTOR1_1_MEAN" := by decide
  have h2 : "MAD_" ++ strUpper "current_u_mean" = "MAD_CURRENT_U_MEAN" := by decide
  have h3 : "MAD_" ++ strUpper "pressure_tr1_mean" = "MAD_PRESSURE_TR1_MEAN" := by decide
  simp [rowConds, ruleConds, madConds, madFeatures, allTagNames, h1, h2, h3]

lemma rowTags_sublist (cfg : Config) (t : Table) (fl : List ℕ) (i : ℕ) :
    (rowTags cfg t fl i).Sublist allTagNames := by
  have h := filterMap_if_sublist (rowConds cfg t fl i)
  rw [rowConds_fst] at h
  exact h

lemma rowTags_nodup (cfg : Config) (t : Table) (fl : List ℕ) (i : ℕ) :
    (rowTags cfg t fl i).Nodup :=
  (rowTags_sublist cfg t fl i).nodup (by decide)

lemma rowTags_good (cfg : Config) (t : Table) (fl : List ℕ) (i : ℕ) :
    ∀ tg ∈ rowTags cfg t fl i, tg.data ≠ [] ∧ ';' ∉ tg.data := by
  intro tg htg
  have hall : ∀ s ∈ allTagNames, s.data ≠ [] ∧ ';' ∉ s.data := by decide
  exact hall tg ((rowTags_sublist cfg t fl i).subset htg)

lemma tagsConcat_data (l : List String) :
    (tagsConcat l).data = (l.map (fun tg => tg.data ++ [';'])).flatten := by
  induction l with
  | nil => rfl
  | cons tg ts ih =>
    show (tg ++ ";" ++ tagsConcat ts).data = _
    rw [String.data_append, String.data_append, ih]
    simp

lemma renderTags_data (l : List String) :
    (renderTags l).data =
      (((l.map (fun tg => tg.data ++ [';'])).flatten.reverse.dropWhile
        (fun ch => ch == ';')).reverse) := by
  unfold renderTags rstripSemi
  rw [tagsConcat_data]

lemma dropWhile_head_false {α : Type} (p : α → Bool) :
    ∀ (l : List α) (a : α), (l.dropWhile p).head? = some a → p a = false := by
  intro l
  induction l with
  | nil => intro a h; simp [List.dropWhile] at h
  | cons x xs ih =>
    intro a h
    rw [List.dropWhile_cons] at h
    by_cases hx : p x = true
    · rw [if_pos hx] at h; exact ih a h
    · rw [if_neg hx] at h
      have hxa : x = a := by simpa using h
      rw [← hxa]
      exact Bool.eq_false_iff.mpr hx

/-- The rendered tag string of any good tag list has no leading and no
trailing delimiter. -/
lemma renderTags_ends (l : List String)
    (hgood : ∀ tg ∈ l, tg.data ≠ [] ∧ ';' ∉ tg.data) :
    (renderTags l).data.head? ≠ some ';' ∧ (renderTags l).data.getLast? ≠ some ';' := by
  rw [renderTags_data]
  constructor
  · cases l with
    | nil => simp
    | cons tg ts =>
      obtain ⟨c0, cs, hc0⟩ :=
        List.exists_cons_of_ne_nil (hgood tg (List.mem_cons_self tg ts)).1
      have hc0ne : c0 ≠ ';' := by
        intro hc
        exact (hgood tg (List.mem_cons_self tg ts)).2 (by rw [hc0, hc]; simp)
      have hJhead : (((tg :: ts).map (fun s => s.data ++ [';'])).flatten).head? = some c0 := by
        rw [List.map_cons, List.flatten_cons, hc0]
        rfl
      have hc0J : c0 ∈ ((tg :: ts).map (fun s => s.data ++ [';'])).flatten :=
        List.mem_of_mem_head? (Option.mem_def.mpr hJhead)
      have hDne : ((((tg :: ts).map (fun s => s.data ++ [';'])).flatten).reverse.dropWhile
          (fun ch => ch == ';')) ≠ [] := by
        intro hnil
        have hall := List.dropWhile_eq_nil_iff.mp hnil
        have hsemi := hall c0 (List.mem_reverse.mpr hc0J)
        simp at hsemi
        exact hc0ne hsemi
      obtain ⟨pre, hpre⟩ :=
        List.dropWhile_suffix (l := (((tg :: ts).map (fun s => s.data ++ [';'])).flatten).reverse)
          (p := fun ch => ch == ';')
      rw [List.head?_reverse]
      have happ := List.getLast?_append_of_ne_nil pre hDne
      rw [hpre] at happ
      rw [← happ, List.getLast?_reverse, hJhead]
      intro hc
      exact hc0ne (Option.some.inj hc)
  · rw [List.getLast?_reverse]
    cases hd : ((l.map (fun tg => tg.data ++ [';'])).flatten.reverse.dropWhile
        (fun ch => ch == ';')).head? with
    | none => simp
    | some a =>
      have hpa := dropWhile_head_false (fun ch => ch == ';') _ a hd
      simp at hpa
      intro hc
      exact hpa (Option.some.inj hc)

/-- C8: every output row's `anomaly_types` string is the rendering of a
duplicate-free tag list (each rule tag, each per-feature MAD tag and the
ML tag appears at most once), and the string neither begins nor ends with
the `';'` delimiter. -/
theorem c8_tags_wellformed (cfg : Config) (fit : MLOracle) (t : Table) (out : OutTable)
    (h : detect_anomalies cfg fit t = .ok out) (i : ℕ) (hi : i < t.rows.length) :
    ∃ tl : List String, tl.Nodup ∧ tl.Sublist allTagNames ∧
      (out.rows.getD i default).anomaly_types = renderTags tl ∧
      (out.rows.getD i default).anomaly_types.data.head? ≠ some ';' ∧
      (out.rows.getD i default).anomaly_types.data.getLast? ≠ some ';' := by
  obtain ⟨fl, hml, rfl⟩ := detect_ok_elim h
  have hrow : ((buildOut cfg t fl).rows.getD i default).anomaly_types =
      renderTags (rowTags cfg t fl i) := by
    rw [buildOut_row cfg t fl i hi]
    rfl
  refine ⟨rowTags cfg t fl i, rowTags_nodup cfg t fl i, rowTags_sublist cfg t fl i,
    hrow, ?_, ?_⟩
  · rw [hrow]
    exact (renderTags_ends _ (rowTags_good cfg t fl i)).1
  · rw [hrow]
    exact (renderTags_ends _ (rowTags_good cfg t fl i)).2

/-- Witness for C8 on the hot one-row table, whose row carries exactly
the `HIGH_TEMP` tag. -/
theorem c8_tags_wellformed_witness :
    detect_anomalies cfg0 okOracle tblHot = .ok outHot ∧ 0 < tblHot.rows.length ∧
    (outHot.rows.getD 0 default).anomaly_types = "HIGH_TEMP" ∧
    (outHot.rows.getD 0 default).anomaly_types.data.head? ≠ some ';' ∧
    (outHot.rows.getD 0 default).anomaly_types.data.getLast? ≠ some ';' := by
  have h : detect_anomalies cfg0 okOracle tblHot = .ok outHot := rfl
  obtain ⟨tl, _, _, _, hh, hl⟩ :=
    c8_tags_wellformed cfg0 okOracle tblHot outHot h 0 (by decide)
  exact ⟨h, by decide, by decide, hh, hl⟩

/-- C9: detection is deterministic and idempotent — two runs on equal
input tables with the same configuration and the same (seed-indexed)
model-fitting function produce identical results, and in particular
identical flag, score, verdict and tag columns.  In the embedding the
Isolation Forest is a function of (contamination, seed, data) with the
seed fixed at 42, exactly the source's `random_state=42`; the run has no
other randomness source. -/
theorem c9_deterministic (cfg : Config) (fit : MLOracle) (t₁ t₂ : Table)
    (hin : t₁ = t₂) :
    detect_anomalies cfg fit t₁ = detect_anomalies cfg fit t₂ ∧
    (detect_anomalies cfg fit t₁).map (fun o => o.rows.map (fun r =>
        (r.anomaly_rule, r.anomaly_mad, r.anomaly_ml, r.anomaly_score,
         r.is_anomaly, r.anomaly_types))) =
      (detect_anomalies cfg fit t₂).map (fun o => o.rows.map (fun r =>
        (r.anomaly_rule, r.anomaly_mad, r.anomaly_ml, r.anomaly_score,
         r.is_anomaly, r.anomaly_types))) := by
  subst hin
  exact ⟨rfl, rfl⟩

/-- Witness for C9: rerunning the healthy one-row table. -/
theorem c9_deterministic_witness :
    detect_anomalies cfg0 okOracle tbl1 = detect_anomalies cfg0 okOracle tbl1 ∧
    (detect_anomalies cfg0 okOracle tbl1).map (fun o => o.rows.map (fun r =>
        (r.anomaly_rule, r.anomaly_mad, r.anomaly_ml, r.anomaly_score,
         r.is_anomaly, r.anomaly_types))) =
      (detect_anomalies cfg0 okOracle tbl1).map (fun o => o.rows.map (fun r =>
        (r.anomaly_rule, r.anomaly_mad, r.anomaly_ml, r.anomaly_score,
         r.is_anomaly, r.anomaly_types))) :=
  c9_deterministic cfg0 okOracle tbl1 tbl1 rfl

/-- Counterexample to C10: the persisted table of the healthy run is the
input augmented with SEVEN columns, not six — the intermediate
`speed_change` column created at line 88 is never dropped before
`to_parquet` — so the output schema differs from the input schema plus
the six contract columns. -/
theorem c10_counterexample :
    detect_anomalies cfg0 okOracle tbl1 = .ok out1 ∧
    out1.schema = tbl1.schema ++ newCols ∧
    "speed_change" ∈ out1.schema ∧
    "speed_change" ∉ tbl1.schema ∧
    "speed_change" ∉ specSixCols ∧
    out1.schema ≠ tbl1.schema ++ specSixCols := by
  refine ⟨rfl, rfl, by decide, by decide, by decide, by decide⟩

/-- C10 as amended: the persisted table is the input augmented with
exactly the seven columns `anomaly_rule, anomaly_mad, anomaly_ml,
anomaly_types, speed_change, anomaly_score, is_anomaly` (in assignment
order), with the same row count and every input row's cells passed
through unchanged.  (The embedding assumes the added names are fresh in
the input schema, as the feature-table contract guarantees; a pre-existing
column of one of those names would instead be overwritten.) -/
theorem c10_output_shape (cfg : Config) (fit : MLOracle) (t : Table) (out : OutTable)
    (h : detect_anomalies cfg fit t = .ok out) :
    out.schema = t.schema ++ newCols ∧
    out.rows.length = t.rows.length ∧
    ∀ i, i < t.rows.length → (out.rows.getD i default).orig = rowAt t i := by
  obtain ⟨fl, hml, rfl⟩ := detect_ok_elim h
  refine ⟨rfl, buildOut_rows_length cfg t fl, ?_⟩
  intro i hi
  rw [buildOut_row cfg t fl i hi]
  rfl

/-- Witness for C10's amended statement on the healthy one-row run. -/
theorem c10_output_shape_witness :
    detect_anomalies cfg0 okOracle tbl1 = .ok out1 ∧
    out1.schema = tbl1.schema ++ newCols ∧
    out1.rows.length = tbl1.rows.length ∧
    (out1.rows.getD 0 default).orig = rowAt tbl1 0 := by
  have h : detect_anomalies cfg0 okOracle tbl1 = .ok out1 := rfl
  have hc := c10_output_shape cfg0 okOracle tbl1 out1 h
  exact ⟨h, hc.1, hc.2.1, hc.2.2 0 (by decide)⟩
